import Mathlib

/-!
Shallow embedding of `src/app.py` of caldav-reminder-telegram-bot.

Modelling conventions:
* Timestamps (`datetime`) are integers (minutes); `timedelta(minutes=m)` is the
  integer `m`.
* A Python `str` is a Lean `String`; Python string comparison is code-point
  lexicographic, embedded as `List Char` comparison on `String.data`.
* `caldav.vobject` event components are embedded as a `VEvent` record carrying
  the content fields the program reads (summary, description, location,
  dtstart); the VALARM component attached to a reminder is kept as an opaque
  `Option String` payload (`None` for the synthetic default reminder built by
  `Reminder.from_vevent`, as in the source).
* Network calls (`fetch_calendars` / `fetch_events`) and rendering/delivery
  (`bot.send_message`) are external effects: a sync pass receives the fetch
  outcome as an `Except` value, and the drain loop receives a `sendOk` oracle
  saying which deliveries succeed (`false` = `send_message` raises).
* asyncio tasks created by `scheduleReminderTask` are modelled explicitly as a
  grow-only list of task records with a status (`pending`/`cancelled`/`fired`);
  `Task.cancel()` of a sleeping `run_at` turns a pending record cancelled
  (`run_at` catches `CancelledError` before ever awaiting its coroutine), and a
  timer can only fire while pending.
-/

namespace CaldavBot

/-- Embedded event component: the fields of a `vevent` that the program reads.
`dtstart` is the (timezone-normalised) start time. -/
structure VEvent where
  summary : String
  description : String
  location : String
  dtstart : Int
deriving DecidableEq, Repr

/-- Embedding of the `Reminder` dataclass (`app.py` lines 48-61):
`dt` is the due time, `valarm` the alarm component (`none` for synthetic
default reminders), `vevent` the originating event, `url` the canonical URL
of the calendar object. -/
structure Reminder where
  dt : Int
  valarm : Option String
  vevent : VEvent
  url : String
deriving DecidableEq, Repr

/-- Python `@dataclass(order=True)` equality for `Reminder`: the generated
`__eq__` compares the tuple of compare-enabled fields in declaration order,
which is `(dt, url)` — `valarm` and `vevent` are declared `compare=False`. -/
def Reminder.pyEq (a b : Reminder) : Bool :=
  a.dt == b.dt && a.url.data == b.url.data

/-- Python `@dataclass(order=True)` strict comparison for `Reminder`: the
generated `__lt__` compares the tuple `(dt, url)` lexicographically. -/
def Reminder.pyLt (a b : Reminder) : Bool :=
  decide (a.dt < b.dt) || (a.dt == b.dt && decide (a.url.data < b.url.data))

/-- Non-strict order used by the stable sort: `list.sort()` sorts ascending
with respect to `__lt__`, i.e. `a` may stay left of `b` iff `not (b < a)`. -/
def Reminder.pyLe (a b : Reminder) : Bool :=
  !(Reminder.pyLt b a)

/-- Embedding of `Reminder.from_vevent` (`app.py` lines 57-61): the synthetic
default reminder, due `minutes` before the event start, with no VALARM. -/
def Reminder.from_vevent (vevent : VEvent) (minutes : Int) (url : String) : Reminder :=
  { dt := vevent.dtstart - minutes, valarm := none, vevent := vevent, url := url }

/-- Embedding of the `Event` dataclass (`app.py` lines 64-69): the event
component, its explicit reminders (built from VALARM triggers by
`fetch_events`), and the canonical URL of the raw calendar object. -/
structure Event where
  vevent : VEvent
  reminders : List Reminder
  url : String
deriving DecidableEq, Repr

/-- Candidate reminders of one event inside `extract_reminders` before the
past-due filter (`app.py` lines 190-201): when the event has no explicit
reminder and a default offset is configured, the single synthetic reminder
from `Reminder.from_vevent`; otherwise the event's explicit reminders. -/
def candidateReminders (offset : Option Int) (e : Event) : List Reminder :=
  match e.reminders, offset with
  | [], some m => [Reminder.from_vevent e.vevent m e.url]
  | [], none => []
  | rs, _ => rs

/-- Contribution of one event to `extract_reminders`: its candidate reminders
with every strictly past-due one dropped (`reminder.dt >= now` keeps the
boundary `dt == now`). -/
def eventContribution (now : Int) (offset : Option Int) (e : Event) : List Reminder :=
  (candidateReminders offset e).filter (fun r => now ≤ r.dt)

/-- Embedding of `CaldavHandler.extract_reminders` (`app.py` lines 183-209):
collect each event's surviving reminders in event order, then stable-sort the
concatenation ascending with the dataclass order (Python `list.sort()`). -/
def extract_reminders (now : Int) (offset : Option Int) (events : List Event) : List Reminder :=
  ((events.map (eventContribution now offset)).flatten).mergeSort Reminder.pyLe

/-- Concatenation of the per-event contributions before the final sort
(the `reminders` accumulator of `extract_reminders` just before
`reminders.sort()` runs). -/
def preSortReminders (now : Int) (offset : Option Int) (events : List Event) : List Reminder :=
  (events.map (eventContribution now offset)).flatten

/-- Python `!=` on two `List[Reminder]` values: pointwise dataclass equality,
used by `Worker.sync` to decide whether the queue changed. This is the
equality side (`listPyEq q q2 = true` iff Python `q == q2`). -/
def listPyEq : List Reminder → List Reminder → Bool
  | [], [] => true
  | a :: as_, b :: bs => a.pyEq b && listPyEq as_ bs
  | _, _ => false

/-- Status of an asyncio task created for `run_at`: still sleeping
(`pending`), cancelled while sleeping (`cancelled` — `run_at` catches the
`CancelledError` raised in its sleep and returns without awaiting the
coroutine), or woken and run (`fired`). -/
inductive TStatus where
  | pending
  | cancelled
  | fired
deriving DecidableEq, Repr

/-- Record of one dispatch-timer task: the wake-up target passed to `run_at`
and the task status. -/
structure TaskRec where
  target : Int
  status : TStatus
deriving DecidableEq, Repr

/-- Embedding of the `Worker` state that the scheduling core mutates:
the live queue `sorted_reminders`, the `reminder_task` reference (index into
`tasks`, or `none`), and the history of all dispatch-timer tasks ever created
(grow-only; `tasks` index = creation order). -/
structure WState where
  sorted_reminders : List Reminder
  reminder_task : Option Nat
  tasks : List TaskRec
deriving DecidableEq, Repr

/-- Worker state at process start (`Worker.__init__`): empty queue, no
reminder task, no task ever created. -/
def initState : WState := { sorted_reminders := [], reminder_task := none, tasks := [] }

/-- Status of task `i` in a worker state, `none` if no such task exists. -/
def statusAt (st : WState) (i : Nat) : Option TStatus :=
  (st.tasks[i]?).map TaskRec.status

/-- Status transition of one task: a pending task at index `i` moves to
status `new`; a task that is already cancelled or fired is unaffected, as is
an index that does not exist. -/
def markIfPending (new : TStatus) (tasks : List TaskRec) (i : Nat) : List TaskRec :=
  match tasks[i]? with
  | some t => if t.status = .pending then tasks.set i { t with status := new } else tasks
  | none => tasks

/-- Effect of `task.cancel()` on the task list: a pending task becomes
cancelled; cancelling a task that is already cancelled or has already fired
is a no-op, as is cancelling an index that does not exist. -/
def cancelTask (tasks : List TaskRec) (i : Nat) : List TaskRec :=
  markIfPending .cancelled tasks i

/-- Marking task `i` as having woken up and run (only a pending task can
reach this point). -/
def setFired (tasks : List TaskRec) (i : Nat) : List TaskRec :=
  markIfPending .fired tasks i

/-- Embedding of `Worker.scheduleReminderTask` (`app.py` lines 239-246):
if `reminder_task` references a task, cancel it; then, if the queue is
non-empty, create a new task sleeping until the head's `dt` and point
`reminder_task` at it. With an empty queue no new task is created and
`reminder_task` keeps referencing the (now cancelled) old task, exactly as in
the source. `cancelCurrent` is the cancellation phase (`app.py` lines
241-242) on its own. -/
def cancelCurrent (st : WState) : List TaskRec :=
  match st.reminder_task with
  | some i => cancelTask st.tasks i
  | none => st.tasks

/-- Arming phase of `Worker.scheduleReminderTask`: see `cancelCurrent`. -/
def scheduleReminderTask (st : WState) : WState :=
  match st.sorted_reminders with
  | [] => { st with tasks := cancelCurrent st }
  | r :: _ =>
    { sorted_reminders := st.sorted_reminders,
      reminder_task := some (cancelCurrent st).length,
      tasks := cancelCurrent st ++ [{ target := r.dt, status := .pending }] }

/-- Queue replacement as performed inside `Worker.sync` when the extracted
list differs from the current queue: install the new queue, then re-arm via
`scheduleReminderTask`. -/
def replaceQueue (newQ : List Reminder) (st : WState) : WState :=
  scheduleReminderTask { st with sorted_reminders := newQ }

/-- Result of one call of `Worker.process_next_reminder` (`app.py` lines
288-298): the Python return value (or the exception raised by
`bot.send_message`), and the queue after the call. Note the source pops the
head *before* checking whether it is due, so a not-yet-due head is removed
and simply not dispatched. -/
inductive StepResult where
  | ret (b : Bool)
  | exn
deriving DecidableEq, Repr

/-- Embedding of `Worker.process_next_reminder`: on a non-empty queue pop the
head; if it is due (`dt <= now`) attempt delivery — success returns `True`,
failure raises out of the function; a popped not-yet-due head falls through
to `return False`. An empty queue returns `False`. -/
def process_next_reminder (now : Int) (sendOk : Reminder → Bool) :
    List Reminder → StepResult × List Reminder
  | [] => (.ret false, [])
  | r :: rest =>
    if r.dt ≤ now then
      if sendOk r then (.ret true, rest) else (.exn, rest)
    else (.ret false, rest)

/-- Outcome of the `while await self.process_next_reminder(): pass` loop in
`Worker.process_reminders`: whether an uncaught delivery exception aborted the
loop, the queue when the loop stopped, and the reminders actually delivered,
in delivery order. -/
structure DrainResult where
  aborted : Bool
  queue : List Reminder
  sent : List Reminder
deriving DecidableEq, Repr

/-- Iterated `process_next_reminder` until it returns `False` or raises:
the drain loop of `Worker.process_reminders` (`app.py` lines 281-282). -/
def drain (now : Int) (sendOk : Reminder → Bool) : List Reminder → DrainResult
  | [] => { aborted := false, queue := [], sent := [] }
  | r :: rest =>
    if r.dt ≤ now then
      if sendOk r then
        let d := drain now sendOk rest
        { d with sent := r :: d.sent }
      else { aborted := true, queue := rest, sent := [] }
    else { aborted := false, queue := rest, sent := [] }

/-- Armed wake-up target after `scheduleReminderTask` runs on a queue:
the head's due time, or nothing for an empty queue. -/
def armedTarget : List Reminder → Option Int
  | [] => none
  | r :: _ => some r.dt

/-- Embedding of `Worker.process_reminders` (`app.py` lines 276-286) as a
function of the queue: run the drain loop; on normal exit re-arm against the
remaining queue (`scheduleReminderTask`), reported here as the new armed
target; a delivery exception escapes the `except asyncio.CancelledError`
handler, so the task dies before re-arming and no timer is armed. -/
def process_reminders (now : Int) (sendOk : Reminder → Bool) (q : List Reminder) :
    DrainResult × Option Int :=
  let d := drain now sendOk q
  if d.aborted then (d, none) else (d, armedTarget d.queue)

/-- Firing of the armed dispatch timer `i` on the full worker state: `run_at`
wakes, the task is marked fired, `process_reminders` clears `reminder_task`,
runs the drain loop, and — unless a delivery exception killed the task —
re-arms via `scheduleReminderTask`. -/
def fireStep (now : Int) (sendOk : Reminder → Bool) (i : Nat) (st : WState) : WState :=
  if (drain now sendOk st.sorted_reminders).aborted then
    { sorted_reminders := (drain now sendOk st.sorted_reminders).queue,
      reminder_task := none,
      tasks := setFired st.tasks i }
  else
    scheduleReminderTask
      { sorted_reminders := (drain now sendOk st.sorted_reminders).queue,
        reminder_task := none,
        tasks := setFired st.tasks i }

/-- Embedding of `Worker.sync` (`app.py` lines 248-274). The whole
fetch-and-extract pipeline (`fetch_calendars` / `fetch_events`) is an
external effect whose outcome is passed in as `fetched`; `Except.error`
covers both a raised exception (caught by the `except` clause) and the
early `return` when the calendar list cannot be fetched. On success, the
source only extracts and compares when the fetched event list is non-empty
(`if events:`); the queue is replaced only when the extracted list differs
from the current queue under Python list equality. The second component is
the time at which the `finally` block schedules the next sync run. -/
def sync (interval : Int) (offset : Option Int) (now : Int)
    (fetched : Except Unit (List Event)) (st : WState) : WState × Int :=
  match fetched with
  | .error _ => (st, now + interval)
  | .ok events =>
    if events.isEmpty then (st, now + interval)
    else
      let newQ := extract_reminders now offset events
      if listPyEq newQ st.sorted_reminders then (st, now + interval)
      else (replaceQueue newQ st, now + interval)

/-- Transitions of the scheduling core: a sync pass (with any fetch outcome),
or the firing of a pending dispatch timer whose wake-up time has arrived.
A cancelled or fired task never fires: `run_at` only reaches its coroutine
when its sleep completes uninterrupted. -/
inductive Step : WState → WState → Prop where
  | sync_step (interval : Int) (offset : Option Int) (now : Int)
      (fetched : Except Unit (List Event)) (st : WState) :
      Step st (sync interval offset now fetched st).1
  | fire_step (now : Int) (sendOk : Reminder → Bool) (i : Nat) (st : WState) (t : TaskRec)
      (hget : st.tasks[i]? = some t) (hpend : t.status = .pending) (hdue : t.target ≤ now) :
      Step st (fireStep now sendOk i st)

/-- States reachable from process start through sync passes and timer
firings. -/
inductive Reachable : WState → Prop where
  | init : Reachable initState
  | step {st st2 : WState} : Reachable st → Step st st2 → Reachable st2

/-- Invariant of the task bookkeeping: every pending dispatch-timer task is
the one currently referenced by `reminder_task`. -/
def Inv (st : WState) : Prop :=
  ∀ i t, st.tasks[i]? = some t → t.status = .pending → st.reminder_task = some i

/-- At most one dispatch timer is pending. -/
def AtMostOnePending (st : WState) : Prop :=
  ∀ (i j : Nat) (ti tj : TaskRec), st.tasks[i]? = some ti → st.tasks[j]? = some tj →
    ti.status = .pending → tj.status = .pending → i = j

/-- Embedding of the startup configuration (`Config.__init__`, `app.py`
lines 30-45): each value is present or absent. -/
structure Config where
  CALDAV_URL : Option String
  CALDAV_USERNAME : Option String
  CALDAV_PASSWORD : Option String
  CALENDAR_IDS : Option (List String)
  TELEGRAM_BOT_TOKEN : Option String
  TELEGRAM_CHAT_ID : Option String
deriving DecidableEq, Repr

/-- Outcome of the `__main__` block: `sys.exit(1)` before the core starts, or
`worker.run()` entering the scheduling loop. -/
inductive MainOutcome where
  | exitOne
  | runLoop
deriving DecidableEq, Repr

/-- Embedding of the `__main__` startup checks (`app.py` lines 336-359):
exit with status 1 when `CALDAV_URL`, `CALDAV_USERNAME`/`CALDAV_PASSWORD` or
`TELEGRAM_BOT_TOKEN`/`TELEGRAM_CHAT_ID` is missing, or when `login` fails;
otherwise start the worker. `CALENDAR_IDS` is never checked. -/
def main_startup (cfg : Config) (loginOk : Bool) : MainOutcome :=
  if cfg.CALDAV_URL.isNone then .exitOne
  else if cfg.CALDAV_USERNAME.isNone || cfg.CALDAV_PASSWORD.isNone then .exitOne
  else if cfg.TELEGRAM_BOT_TOKEN.isNone || cfg.TELEGRAM_CHAT_ID.isNone then .exitOne
  else if !loginOk then .exitOne
  else .runLoop

/-! Concrete inputs used to evaluate the embedding on specific scenarios. -/

/-- Sample event component with start time 10. -/
def vDemo : VEvent := { summary := "Demo", description := "", location := "", dtstart := 10 }

/-- Sample event component with the same key data as `vDemo` but different
content fields. -/
def vDemo2 : VEvent := { summary := "Edited", description := "d", location := "l", dtstart := 10 }

/-- Sample event component for the default-reminder scenario, start time 100. -/
def vW : VEvent := { summary := "Standup", description := "", location := "", dtstart := 100 }

/-- Reminder due 10 before the reference instant. -/
def rPast : Reminder := { dt := -10, valarm := some "alarm", vevent := vDemo, url := "u1" }

/-- Reminder due exactly at the reference instant. -/
def rNow : Reminder := { dt := 0, valarm := some "alarm", vevent := vDemo, url := "u2" }

/-- Reminder due 5 after the reference instant. -/
def rFuture : Reminder := { dt := 5, valarm := some "alarm", vevent := vDemo, url := "u3" }

/-- Delivery oracle for which sending `rPast` (url `u1`) raises and every
other delivery succeeds. -/
def sendOkC2 : Reminder → Bool := fun r => !(r.url == "u1")

/-- Worker state with a non-empty queue and an armed timer at the head's due
time. -/
def stC3 : WState :=
  { sorted_reminders := [rFuture], reminder_task := some 0,
    tasks := [{ target := 5, status := .pending }] }

/-- Two reminders sharing the due time 5 but with different urls. -/
def rUrlA : Reminder := { dt := 5, valarm := some "alarm", vevent := vDemo, url := "a" }

/-- See `rUrlA`. -/
def rUrlB : Reminder := { dt := 5, valarm := some "alarm", vevent := vDemo, url := "b" }

/-- Event whose explicit reminders appear in the order `rUrlB`, `rUrlA`. -/
def eC7 : Event := { vevent := vDemo, reminders := [rUrlB, rUrlA], url := "b" }

/-- Event carrying the same explicit reminder twice. -/
def eDup : Event := { vevent := vDemo, reminders := [rUrlA, rUrlA], url := "a" }

/-- Event with no explicit reminder (default-reminder scenario). -/
def eW : Event := { vevent := vW, reminders := [], url := "uW" }

/-- Event with one explicit reminder. -/
def eX : Event := { vevent := vDemo, reminders := [rNow], url := "u2" }

/-- Event with one explicit reminder due exactly at extraction time 5. -/
def eB6 : Event := { vevent := vDemo, reminders := [rFuture], url := "u3" }

/-- Reminder differing from `rY10` only in non-key fields. -/
def rX10 : Reminder := { dt := 5, valarm := some "alarm", vevent := vDemo, url := "u" }

/-- See `rX10`. -/
def rY10 : Reminder := { dt := 5, valarm := some "alarm2", vevent := vDemo2, url := "u" }

/-- Event yielding exactly `rY10` on extraction at time 0. -/
def eY10 : Event := { vevent := vDemo2, reminders := [rY10], url := "u" }

/-- Worker state whose queue holds `rX10` with an armed timer. -/
def stX10 : WState :=
  { sorted_reminders := [rX10], reminder_task := some 0,
    tasks := [{ target := 5, status := .pending }] }

/-- Startup configuration with every value present except `CALENDAR_IDS`. -/
def cfgC9 : Config :=
  { CALDAV_URL := some "https://dav.example", CALDAV_USERNAME := some "user",
    CALDAV_PASSWORD := some "pw", CALENDAR_IDS := none,
    TELEGRAM_BOT_TOKEN := some "token", TELEGRAM_CHAT_ID := some "chat" }

/-! Helper lemmas about the dataclass order and the extractor. -/

/-- Characterisation of the stable-sort order: `pyLe a b` holds iff the key
pair `(dt, url)` of `a` is lexicographically at most that of `b`. -/
theorem Reminder.pyLe_iff (a b : Reminder) :
    a.pyLe b = true ↔ (a.dt < b.dt ∨ (a.dt = b.dt ∧ a.url.data ≤ b.url.data)) := by
  simp only [Reminder.pyLe, Reminder.pyLt, Bool.not_eq_true', Bool.or_eq_false_iff,
    decide_eq_false_iff_not, not_lt, Bool.and_eq_false_iff, beq_eq_false_iff_ne, ne_eq]
  constructor
  · rintro ⟨h1, h2 | h2⟩
    · exact Or.inl (lt_of_le_of_ne h1 (fun hh => h2 hh.symm))
    · rcases lt_or_eq_of_le h1 with h | h
      · exact Or.inl h
      · exact Or.inr ⟨h, h2⟩
  · rintro (h | ⟨h, hu⟩)
    · exact ⟨le_of_lt h, Or.inl (ne_of_gt h)⟩
    · exact ⟨le_of_eq h, Or.inr hu⟩

/-- Transitivity of the sort order. -/
theorem Reminder.pyLe_trans (a b c : Reminder) :
    a.pyLe b = true → b.pyLe c = true → a.pyLe c = true := by
  simp only [Reminder.pyLe_iff]
  rintro (h1 | ⟨h1, h1u⟩) (h2 | ⟨h2, h2u⟩)
  · exact Or.inl (lt_trans h1 h2)
  · exact Or.inl (lt_of_lt_of_le h1 (le_of_eq h2))
  · exact Or.inl (lt_of_le_of_lt (le_of_eq h1) h2)
  · exact Or.inr ⟨h1.trans h2, le_trans h1u h2u⟩

/-- Totality of the sort order. -/
theorem Reminder.pyLe_total (a b : Reminder) :
    (a.pyLe b || b.pyLe a) = true := by
  simp only [Bool.or_eq_true, Reminder.pyLe_iff]
  rcases lt_trichotomy a.dt b.dt with h | h | h
  · exact Or.inl (Or.inl h)
  · rcases le_total a.url.data b.url.data with hu | hu
    · exact Or.inl (Or.inr ⟨h, hu⟩)
    · exact Or.inr (Or.inr ⟨h.symm, hu⟩)
  · exact Or.inr (Or.inl h)

/-- Dataclass equality on `Reminder` compares exactly the `(dt, url)` key. -/
theorem Reminder.pyEq_iff (r1 r2 : Reminder) :
    r1.pyEq r2 = true ↔ (r1.dt = r2.dt ∧ r1.url = r2.url) := by
  simp only [Reminder.pyEq, Bool.and_eq_true, beq_iff_eq]
  constructor
  · rintro ⟨h1, h2⟩
    exact ⟨h1, String.ext h2⟩
  · rintro ⟨h1, h2⟩
    exact ⟨h1, h2 ▸ rfl⟩

/-- The extractor output is a permutation of the pre-sort concatenation. -/
theorem extract_reminders_perm (now : Int) (offset : Option Int) (events : List Event) :
    (extract_reminders now offset events).Perm (preSortReminders now offset events) :=
  List.mergeSort_perm _ _

/-- Membership in the extractor output agrees with membership in the
pre-sort concatenation. -/
theorem mem_extract_reminders {r : Reminder} {now : Int} {offset : Option Int}
    {events : List Event} :
    r ∈ extract_reminders now offset events ↔ r ∈ preSortReminders now offset events :=
  List.mem_mergeSort

/-- The extractor output is sorted for the dataclass order. -/
theorem extract_reminders_sorted (now : Int) (offset : Option Int) (events : List Event) :
    List.Pairwise (fun a b => a.pyLe b = true) (extract_reminders now offset events) :=
  List.sorted_mergeSort Reminder.pyLe_trans Reminder.pyLe_total _

/-! Claim theorems. -/

/-- C1: evaluation of the embedded drain loop on the queue due at
`t-10, t, t+5` drained at `t+1` (here `t = 0`), with every delivery
succeeding. The code dispatches the two due reminders oldest first, but then
pops the not-yet-due head `rFuture` as well: the drain ends with `rFuture`
neither dispatched nor in the queue, and the scheduler left idle (armed
target `none`) instead of re-armed at `5`. -/
theorem C1_drain_drops_undue_head :
    process_reminders 1 (fun _ => true) [rPast, rNow, rFuture]
        = ({ aborted := false, queue := [], sent := [rPast, rNow] }, none)
    ∧ rFuture ∉ (process_reminders 1 (fun _ => true) [rPast, rNow, rFuture]).1.sent
    ∧ rFuture ∉ (process_reminders 1 (fun _ => true) [rPast, rNow, rFuture]).1.queue := by
  exact ⟨by decide, by decide, by decide⟩

/-- C4: a sync pass schedules its next run exactly `interval` after the
current instant, whatever the fetch outcome, and a pass whose fetch or
extraction raises leaves the worker state (queue and timer tasks) completely
unchanged. -/
theorem C4_sync_reschedules_and_error_is_noop :
    (∀ (interval : Int) (offset : Option Int) (now : Int)
        (fetched : Except Unit (List Event)) (st : WState),
        (sync interval offset now fetched st).2 = now + interval)
    ∧ (∀ (interval : Int) (offset : Option Int) (now : Int) (st : WState),
        (sync interval offset now (Except.error ()) st).1 = st) := by
  constructor
  · intro interval offset now fetched st
    rcases fetched with e | events
    · rfl
    · simp only [sync]
      split
      · rfl
      · split <;> rfl
  · intro interval offset now st
    rfl

/-- C9 counterexample: with every configuration value present except
`CALENDAR_IDS` and a successful login, the process enters the scheduling
loop instead of exiting — missing subscribed-calendar identifiers are not a
fatal startup error in the code. -/
theorem C9_counterexample_calendar_ids_not_checked :
    cfgC9.CALENDAR_IDS = none ∧ main_startup cfgC9 true = MainOutcome.runLoop := by
  exact ⟨rfl, rfl⟩

/-- C9 amended: the startup checks cover the data-source URL, the
credentials, the notification token and chat target, and the initial login;
any of those missing (or the login failing) exits with a non-zero status
before the scheduling core starts. `CALENDAR_IDS` is not checked. -/
theorem C9_amended_startup_checks :
    ∀ (cfg : Config) (loginOk : Bool),
      (cfg.CALDAV_URL = none ∨ cfg.CALDAV_USERNAME = none ∨ cfg.CALDAV_PASSWORD = none
        ∨ cfg.TELEGRAM_BOT_TOKEN = none ∨ cfg.TELEGRAM_CHAT_ID = none ∨ loginOk = false) →
      main_startup cfg loginOk = MainOutcome.exitOne := by
  intro cfg loginOk h
  obtain ⟨u, un, pw, ci, tk, ch⟩ := cfg
  rcases u with _ | u <;> rcases un with _ | un <;> rcases pw with _ | pw <;>
    rcases tk with _ | tk <;> rcases ch with _ | ch <;> rcases loginOk <;>
    simp_all [main_startup]

/-- C9 witness: the amended theorem applied to a configuration missing only
the bot token. -/
theorem C9_amended_startup_checks_witness :
    main_startup { cfgC9 with TELEGRAM_BOT_TOKEN := none, CALENDAR_IDS := some ["c"] } true
      = MainOutcome.exitOne :=
  C9_amended_startup_checks _ true (Or.inr (Or.inr (Or.inr (Or.inl rfl))))

/-- C5: per event, the extractor loop body adds only the event's own explicit
reminders when at least one explicit trigger exists (no synthetic default,
whatever the configured offset); with zero explicit triggers and a configured
offset it derives exactly one synthetic reminder due at `start - offset`
(shown here for a synthetic reminder not already past due); and with zero
triggers and no offset it derives nothing. -/
theorem C5_default_reminder_synthesis :
    (∀ (now : Int) (offset : Option Int) (e : Event), e.reminders ≠ [] →
        eventContribution now offset e = e.reminders.filter (fun r => now ≤ r.dt))
    ∧ (∀ (now m : Int) (e : Event), e.reminders = [] → now ≤ e.vevent.dtstart - m →
        eventContribution now (some m) e =
          [{ dt := e.vevent.dtstart - m, valarm := none, vevent := e.vevent, url := e.url }])
    ∧ (∀ (now : Int) (e : Event), e.reminders = [] → eventContribution now none e = []) := by
  refine ⟨?_, ?_, ?_⟩
  · intro now offset e he
    rcases hr : e.reminders with _ | ⟨r, rs⟩
    · exact absurd hr he
    · cases offset <;> simp [eventContribution, candidateReminders, hr]
  · intro now m e he hle
    simp [eventContribution, candidateReminders, he, Reminder.from_vevent, hle]
  · intro now e he
    simp [eventContribution, candidateReminders, he]

/-- C5 witness: the amended-free theorem applied to the concrete events
`eW` (no trigger, offset 15 from start 100), `eW` with no offset, and `eX`
(one explicit trigger, offset configured). -/
theorem C5_default_reminder_synthesis_witness :
    eventContribution 0 (some 15) eW = [{ dt := 85, valarm := none, vevent := vW, url := "uW" }]
    ∧ eventContribution 0 none eW = []
    ∧ eventContribution 0 (some 15) eX = eX.reminders.filter (fun r => (0 : Int) ≤ r.dt) := by
  refine ⟨?_, C5_default_reminder_synthesis.2.2 0 eW rfl,
    C5_default_reminder_synthesis.1 0 (some 15) eX (by decide)⟩
  have h := C5_default_reminder_synthesis.2.1 0 15 eW rfl (by decide)
  simpa [eW, vW] using h

/-- C6: no reminder strictly past due at extraction time appears in the
extractor output, and every candidate reminder due exactly at the extraction
instant is retained in the output. -/
theorem C6_past_due_dropped_boundary_retained :
    ∀ (now : Int) (offset : Option Int) (events : List Event),
      (∀ r ∈ extract_reminders now offset events, ¬ r.dt < now)
      ∧ (∀ e ∈ events, ∀ r ∈ candidateReminders offset e, r.dt = now →
          r ∈ extract_reminders now offset events) := by
  intro now offset events
  constructor
  · intro r hr
    rw [mem_extract_reminders] at hr
    rcases List.mem_flatten.mp hr with ⟨l, hl, hrl⟩
    rcases List.mem_map.mp hl with ⟨e, he, rfl⟩
    have hkeep := (List.mem_filter.mp hrl).2
    simp only [decide_eq_true_eq] at hkeep
    exact not_lt.mpr hkeep
  · intro e he r hr hdt
    rw [mem_extract_reminders]
    refine List.mem_flatten.mpr ⟨eventContribution now offset e, List.mem_map_of_mem _ he, ?_⟩
    refine List.mem_filter.mpr ⟨hr, ?_⟩
    simp [hdt]

/-- C6 witness: the event `eB6` carries an explicit reminder due exactly at
extraction time 5, and that reminder survives into the extractor output. -/
theorem C6_past_due_dropped_boundary_retained_witness :
    rFuture ∈ extract_reminders 5 none [eB6] :=
  (C6_past_due_dropped_boundary_retained 5 none [eB6]).2 eB6 (by decide) rFuture
    (by decide) rfl

/-- C2 counterexample: queue `[rPast, rNow]`, both due at time 0, where the
delivery of `rPast` raises (`sendOkC2`). The claim would have the failure
handled locally and the drain proceed to dispatch `rNow`; in the code the
exception aborts the drain task, so `rNow` is never dispatched. -/
theorem C2_counterexample_drain_aborts :
    ¬ ((process_reminders 0 sendOkC2 [rPast, rNow]).1.aborted = false
        ∧ rNow ∈ (process_reminders 0 sendOkC2 [rPast, rNow]).1.sent) := by
  decide

/-- C2 amended: a rendering/delivery failure is not caught inside the worker.
The failing reminder is still removed from the queue and never retried, but
the exception aborts the drain task: the remaining reminders stay queued, no
further reminder is dispatched in that cycle, and no timer is re-armed (the
event loop itself keeps running; the queue is only picked up again by a later
sync). Every reminder reported sent was due and delivered successfully. -/
theorem C2_amended_failure_aborts_drain :
    (∀ (now : Int) (sendOk : Reminder → Bool) (r : Reminder) (rest : List Reminder),
        r.dt ≤ now → sendOk r = false →
        process_reminders now sendOk (r :: rest)
          = ({ aborted := true, queue := rest, sent := [] }, none))
    ∧ (∀ (now : Int) (sendOk : Reminder → Bool) (q : List Reminder) (x : Reminder),
        x ∈ (drain now sendOk q).sent → sendOk x = true ∧ x.dt ≤ now) := by
  constructor
  · intro now sendOk r rest hdue hfail
    simp [process_reminders, drain, hdue, hfail]
  · intro now sendOk q
    induction q with
    | nil => intro x hx; simp [drain] at hx
    | cons r rest ih =>
      intro x hx
      by_cases hdue : r.dt ≤ now
      · by_cases hok : sendOk r = true
        · simp only [drain, if_pos hdue, if_pos hok, List.mem_cons] at hx
          rcases hx with rfl | hx
          · exact ⟨hok, hdue⟩
          · exact ih x hx
        · simp [drain, if_pos hdue, if_neg hok] at hx
      · simp [drain, if_neg hdue] at hx

/-- C2 witness: the amended theorem applied to the concrete failing drain
(`rPast` fails at time 0) and to a successful singleton drain. -/
theorem C2_amended_failure_aborts_drain_witness :
    process_reminders 0 sendOkC2 [rPast, rNow]
        = ({ aborted := true, queue := [rNow], sent := [] }, none)
    ∧ (sendOkC2 rNow = true ∧ rNow.dt ≤ (0 : Int)) := by
  refine ⟨C2_amended_failure_aborts_drain.1 0 sendOkC2 rPast [rNow] (by decide) (by decide), ?_⟩
  exact C2_amended_failure_aborts_drain.2 0 sendOkC2 [rNow] rNow (by decide)

/-- C3 counterexample: a sync pass whose fetch succeeds with zero events,
run against the non-empty queue of `stC3`. The extracted reminder sequence is
empty and differs from the queue, but the code skips the comparison entirely
(`if events:`) and leaves the stale queue in place instead of replacing it. -/
theorem C3_counterexample_empty_fetch_skipped :
    extract_reminders 0 none [] = []
    ∧ (sync 60 none 0 (Except.ok []) stC3).1 = stC3
    ∧ stC3.sorted_reminders ≠ [] := by
  refine ⟨?_, rfl, by decide⟩
  simp [extract_reminders, List.mergeSort]

/-- C3 amended: only a sync pass whose fetch succeeds with a NON-empty event
set compares the extracted sequence to the current queue (under the
dataclass list equality) and replaces the queue and re-arms when they
differ; a successful fetch of zero events skips extraction and comparison,
leaving a stale queue untouched. Replacement with a non-empty queue arms a
fresh pending timer at the new head's due time. -/
theorem C3_amended_replace_only_for_nonempty_fetch :
    (∀ (interval : Int) (offset : Option Int) (now : Int) (events : List Event) (st : WState),
        events ≠ [] →
        (listPyEq (extract_reminders now offset events) st.sorted_reminders = false →
            (sync interval offset now (Except.ok events) st).1
              = replaceQueue (extract_reminders now offset events) st)
        ∧ (listPyEq (extract_reminders now offset events) st.sorted_reminders = true →
            (sync interval offset now (Except.ok events) st).1 = st))
    ∧ (∀ (interval : Int) (offset : Option Int) (now : Int) (st : WState),
        (sync interval offset now (Except.ok []) st).1 = st)
    ∧ (∀ (newQ : List Reminder) (st : WState) (r : Reminder) (rest : List Reminder),
        newQ = r :: rest →
        (replaceQueue newQ st).sorted_reminders = newQ
        ∧ ∃ n, (replaceQueue newQ st).reminder_task = some n
            ∧ (replaceQueue newQ st).tasks[n]?
                = some { target := r.dt, status := TStatus.pending }) := by
  refine ⟨?_, ?_, ?_⟩
  · intro interval offset now events st hne
    have hempty : events.isEmpty = false := by
      rcases events with _ | ⟨e, es⟩
      · exact absurd rfl hne
      · rfl
    constructor
    · intro h
      simp [sync, hempty, h]
    · intro h
      simp [sync, hempty, h]
  · intro interval offset now st
    rfl
  · intro newQ st r rest hq
    subst hq
    refine ⟨rfl, (cancelCurrent { st with sorted_reminders := r :: rest }).length, rfl, ?_⟩
    exact List.getElem?_concat_length _ _

/-- C3 witness: the amended theorem applied to a non-empty fetch that
replaces the empty initial queue, and to an empty fetch against the
non-empty queue of `stC3`. -/
theorem C3_amended_replace_only_for_nonempty_fetch_witness :
    (sync 60 none 0 (Except.ok [eY10]) initState).1
      = replaceQueue (extract_reminders 0 none [eY10]) initState
    ∧ (sync 60 none 0 (Except.ok []) stC3).1 = stC3 := by
  refine ⟨?_, C3_amended_replace_only_for_nonempty_fetch.2.1 60 none 0 stC3⟩
  refine (C3_amended_replace_only_for_nonempty_fetch.1 60 none 0 [eY10] initState
    (by decide)).1 ?_
  simp +decide [extract_reminders, eventContribution, candidateReminders, eY10, rY10,
    List.mergeSort, listPyEq, initState]

/-- Pointwise characterisation of the Python equality of two reminder
lists: same length and the key pair `(dt, url)` agrees position by
position. -/
theorem listPyEq_iff (q1 q2 : List Reminder) :
    listPyEq q1 q2 = true ↔
      (q1.length = q2.length ∧
       ∀ (i : Nat) (r1 r2 : Reminder), q1[i]? = some r1 → q2[i]? = some r2 →
         r1.dt = r2.dt ∧ r1.url = r2.url) := by
  induction q1 generalizing q2 with
  | nil =>
    cases q2 with
    | nil => simp [listPyEq]
    | cons b bs => simp [listPyEq]
  | cons a as ih =>
    cases q2 with
    | nil => simp [listPyEq]
    | cons b bs =>
      simp only [listPyEq, Bool.and_eq_true, Reminder.pyEq_iff, ih, List.length_cons]
      constructor
      · rintro ⟨⟨hdt, hurl⟩, hlen, hpt⟩
        refine ⟨by omega, ?_⟩
        intro i r1 r2 h1 h2
        cases i with
        | zero =>
          simp only [List.getElem?_cons_zero, Option.some_inj] at h1 h2
          subst h1; subst h2
          exact ⟨hdt, hurl⟩
        | succ n =>
          exact hpt n r1 r2 (by simpa using h1) (by simpa using h2)
      · rintro ⟨hlen, hpt⟩
        refine ⟨hpt 0 a b List.getElem?_cons_zero List.getElem?_cons_zero, by omega, ?_⟩
        intro i r1 r2 h1 h2
        exact hpt (i + 1) r1 r2 (by simpa using h1) (by simpa using h2)

/-- C10: reminder equality — and with it the list comparison that decides
whether a sync pass replaces the queue — is determined solely by the due
time and the url: two reminders are equal iff `dt` and `url` agree, two
queues are equal iff they agree pointwise on that key, and a sync pass whose
extraction agrees with the current queue on the key (whatever the content
fields of the events) leaves the worker state unchanged. -/
theorem C10_reminder_equality_key :
    (∀ r1 r2 : Reminder, r1.pyEq r2 = true ↔ (r1.dt = r2.dt ∧ r1.url = r2.url))
    ∧ (∀ q1 q2 : List Reminder, listPyEq q1 q2 = true ↔
        (q1.length = q2.length ∧
         ∀ (i : Nat) (r1 r2 : Reminder), q1[i]? = some r1 → q2[i]? = some r2 →
           r1.dt = r2.dt ∧ r1.url = r2.url))
    ∧ (∀ (interval : Int) (offset : Option Int) (now : Int) (events : List Event) (st : WState),
        listPyEq (extract_reminders now offset events) st.sorted_reminders = true →
        (sync interval offset now (Except.ok events) st).1 = st) := by
  refine ⟨Reminder.pyEq_iff, listPyEq_iff, ?_⟩
  intro interval offset now events st h
  simp only [sync]
  split
  · rfl
  · simp [h]

/-- C10 witness: `rX10` and `rY10` differ in summary, description, location
and alarm component but share `(dt, url)`; they are equal under the
dataclass equality, and a sync pass extracting `[rY10]` against the queue
`[rX10]` is a no-op. -/
theorem C10_reminder_equality_key_witness :
    Reminder.pyEq rX10 rY10 = true
    ∧ (sync 60 none 0 (Except.ok [eY10]) stX10).1 = stX10 := by
  refine ⟨(C10_reminder_equality_key.1 rX10 rY10).mpr ⟨rfl, rfl⟩, ?_⟩
  refine C10_reminder_equality_key.2.2 60 none 0 [eY10] stX10 ?_
  simp +decide [extract_reminders, eventContribution, candidateReminders, eY10, rY10,
    rX10, stX10, List.mergeSort, listPyEq, Reminder.pyEq]

/-- C7 counterexample: one event with two explicit reminders sharing the due
time 5, listed as `rUrlB` then `rUrlA`. The pre-sort concatenation keeps that
order, but the extractor output swaps them: the sort compares the pair
`(dt, url)`, not `dueAt` alone, so the relative pre-sort order of equal-due
reminders is not preserved. -/
theorem C7_counterexample_sort_key_includes_url :
    preSortReminders 0 none [eC7] = [rUrlB, rUrlA]
    ∧ extract_reminders 0 none [eC7] = [rUrlA, rUrlB]
    ∧ rUrlA.dt = rUrlB.dt
    ∧ rUrlA ≠ rUrlB := by
  refine ⟨?_, ?_, rfl, by decide⟩
  · simp +decide [preSortReminders, eventContribution, candidateReminders, eC7]
  · simp +decide [extract_reminders, eventContribution, candidateReminders,
      eC7, List.mergeSort, List.merge, Reminder.pyLe, Reminder.pyLt, rUrlA, rUrlB]

/-- C7 amended: the extractor output is sorted ascending by `dueAt`, and the
sort is a stable sort on the key `(dueAt, url)`: the output is a permutation
of the pre-sort concatenation ordered lexicographically by that pair, and
reminders sharing both `dueAt` and `url` keep their pre-sort relative order;
reminders sharing only `dueAt` are ordered by `url`. -/
theorem C7_amended_sorted_by_due_lex_url :
    ∀ (now : Int) (offset : Option Int) (events : List Event),
      List.Pairwise (fun a b : Reminder => a.dt ≤ b.dt) (extract_reminders now offset events)
      ∧ List.Pairwise
          (fun a b : Reminder => a.dt < b.dt ∨ (a.dt = b.dt ∧ a.url.data ≤ b.url.data))
          (extract_reminders now offset events)
      ∧ (extract_reminders now offset events).Perm (preSortReminders now offset events)
      ∧ (∀ a b : Reminder, a.dt = b.dt → a.url = b.url →
          [a, b].Sublist (preSortReminders now offset events) →
          [a, b].Sublist (extract_reminders now offset events)) := by
  intro now offset events
  have hlex : List.Pairwise
      (fun a b : Reminder => a.dt < b.dt ∨ (a.dt = b.dt ∧ a.url.data ≤ b.url.data))
      (extract_reminders now offset events) :=
    (extract_reminders_sorted now offset events).imp
      (fun h => (Reminder.pyLe_iff _ _).mp h)
  refine ⟨hlex.imp ?_, hlex, extract_reminders_perm now offset events, ?_⟩
  · intro a b h
    rcases h with h | ⟨h, _⟩
    · exact le_of_lt h
    · exact le_of_eq h
  · intro a b hdt hurl hsub
    unfold preSortReminders at hsub
    unfold extract_reminders
    refine List.pair_sublist_mergeSort Reminder.pyLe_trans Reminder.pyLe_total ?_ hsub
    exact (Reminder.pyLe_iff a b).mpr (Or.inr ⟨hdt, le_of_eq (by rw [hurl])⟩)

/-- C7 witness: the amended theorem applied to the event `eDup`, whose two
identical-key reminders survive in order into the extractor output. -/
theorem C7_amended_sorted_by_due_lex_url_witness :
    [rUrlA, rUrlA].Sublist (extract_reminders 0 none [eDup]) := by
  have hpre : preSortReminders 0 none [eDup] = [rUrlA, rUrlA] := by
    simp +decide [preSortReminders, eventContribution, candidateReminders, eDup]
  exact (C7_amended_sorted_by_due_lex_url 0 none [eDup]).2.2.2 rUrlA rUrlA rfl rfl
    (hpre ▸ List.Sublist.refl _)

/-! Helper lemmas for the timer-task bookkeeping (claim C8). -/

/-- Marking a task keeps the length of the task list. -/
theorem markIfPending_length (new : TStatus) (ts : List TaskRec) (i : Nat) :
    (markIfPending new ts i).length = ts.length := by
  unfold markIfPending
  split
  · split
    · simp
    · rfl
  · rfl

/-- Marking task `i` does not change any other index. -/
theorem getElem?_markIfPending_ne (new : TStatus) (ts : List TaskRec) (i j : Nat)
    (hij : i ≠ j) : (markIfPending new ts i)[j]? = ts[j]? := by
  unfold markIfPending
  split
  · split
    · exact List.getElem?_set_ne hij
    · rfl
  · rfl

/-- After marking with a non-pending status, index `i` is not pending. -/
theorem markIfPending_self_not_pending (new : TStatus) (hnew : new ≠ TStatus.pending)
    (ts : List TaskRec) (i : Nat) (t2 : TaskRec)
    (h : (markIfPending new ts i)[i]? = some t2) : t2.status ≠ TStatus.pending := by
  unfold markIfPending at h
  rcases hts : ts[i]? with _ | t
  · simp only [hts] at h
    exact absurd h (by simp)
  · simp only [hts] at h
    by_cases hp : t.status = TStatus.pending
    · rw [if_pos hp] at h
      have hlt : i < ts.length := (List.getElem?_eq_some_iff.mp hts).1
      rw [List.getElem?_set_self hlt] at h
      injection h with h2
      subst h2
      exact hnew
    · rw [if_neg hp] at h
      rw [hts] at h
      injection h with h2
      subst h2
      exact hp

/-- Marking leaves every entry that is not pending untouched. -/
theorem markIfPending_keeps_nonpending (new : TStatus) (ts : List TaskRec) (i j : Nat)
    (t : TaskRec) (hj : ts[j]? = some t) (hnp : t.status ≠ TStatus.pending) :
    (markIfPending new ts i)[j]? = some t := by
  by_cases hij : i = j
  · subst hij
    unfold markIfPending
    rcases hts : ts[i]? with _ | t3
    · rw [hts] at hj
      exact absurd hj (by simp)
    · simp only [hts]
      rw [hts] at hj
      injection hj with h3
      subst h3
      rw [if_neg hnp]
      exact hts
  · rw [getElem?_markIfPending_ne new ts i j hij]
    exact hj

/-- Under the invariant, no entry of the cancellation phase's task list is
pending. -/
theorem cancelCurrent_no_pending (st : WState) (hInv : Inv st) (j : Nat) (t : TaskRec)
    (hj : (cancelCurrent st)[j]? = some t) : t.status ≠ TStatus.pending := by
  intro hp
  unfold cancelCurrent at hj
  rcases hrem : st.reminder_task with _ | i
  · rw [hrem] at hj
    have hcontra := hInv j t hj hp
    rw [hrem] at hcontra
    exact Option.noConfusion hcontra
  · rw [hrem] at hj
    simp only [cancelTask] at hj
    by_cases hij : i = j
    · subst hij
      exact markIfPending_self_not_pending TStatus.cancelled (by simp) st.tasks i t hj hp
    · rw [getElem?_markIfPending_ne TStatus.cancelled st.tasks i j hij] at hj
      have h2 := hInv j t hj hp
      rw [hrem] at h2
      injection h2 with h3
      exact hij h3

/-- A state with no pending task satisfies the invariant vacuously. -/
theorem Inv_of_no_pending (st : WState)
    (h : ∀ (j : Nat) (t : TaskRec), st.tasks[j]? = some t → t.status ≠ TStatus.pending) :
    Inv st :=
  fun i t hi hp => absurd hp (h i t hi)

/-- Re-arming preserves the invariant. -/
theorem Inv_scheduleReminderTask (st : WState) (hInv : Inv st) :
    Inv (scheduleReminderTask st) := by
  unfold scheduleReminderTask
  rcases hq : st.sorted_reminders with _ | ⟨r, rest⟩
  · exact fun i t hi hp => absurd hp (cancelCurrent_no_pending st hInv i t hi)
  · intro i t hi hp
    by_cases hlt : i < (cancelCurrent st).length
    · rw [List.getElem?_append_left hlt] at hi
      exact absurd hp (cancelCurrent_no_pending st hInv i t hi)
    · push_neg at hlt
      rw [List.getElem?_append_right hlt] at hi
      by_cases h1 : i - (cancelCurrent st).length = 0
      · have h2 : i = (cancelCurrent st).length := by omega
        rw [h2]
      · rw [List.getElem?_eq_none (by simp; omega)] at hi
        exact Option.noConfusion hi

/-- A sync pass preserves the invariant. -/
theorem Inv_sync (interval : Int) (offset : Option Int) (now : Int)
    (fetched : Except Unit (List Event)) (st : WState) (hInv : Inv st) :
    Inv (sync interval offset now fetched st).1 := by
  rcases fetched with e | events
  · exact hInv
  · simp only [sync]
    split
    · exact hInv
    · split
      · exact hInv
      · exact Inv_scheduleReminderTask _ hInv

/-- After a pending task fires, no task of the marked list is pending. -/
theorem no_pending_after_setFired (st : WState) (hInv : Inv st) (j : Nat) (t : TaskRec)
    (hj : st.tasks[j]? = some t) (hp : t.status = TStatus.pending) (k : Nat) (t2 : TaskRec)
    (hk : (setFired st.tasks j)[k]? = some t2) : t2.status ≠ TStatus.pending := by
  intro hp2
  simp only [setFired] at hk
  by_cases hjk : j = k
  · subst hjk
    exact markIfPending_self_not_pending TStatus.fired (by simp) st.tasks j t2 hk hp2
  · rw [getElem?_markIfPending_ne TStatus.fired st.tasks j k hjk] at hk
    have h1 := hInv j t hj hp
    have h2 := hInv k t2 hk hp2
    rw [h1] at h2
    injection h2 with h3
    exact hjk h3

/-- A timer firing preserves the invariant. -/
theorem Inv_fireStep (now : Int) (sendOk : Reminder → Bool) (j : Nat) (st : WState)
    (hInv : Inv st) (t : TaskRec) (hj : st.tasks[j]? = some t)
    (hp : t.status = TStatus.pending) : Inv (fireStep now sendOk j st) := by
  have hnp : ∀ (k : Nat) (t2 : TaskRec), (setFired st.tasks j)[k]? = some t2 →
      t2.status ≠ TStatus.pending := no_pending_after_setFired st hInv j t hj hp
  unfold fireStep
  split
  · exact Inv_of_no_pending _ hnp
  · exact Inv_scheduleReminderTask _ (Inv_of_no_pending _ hnp)

/-- The initial state satisfies the invariant. -/
theorem Inv_initState : Inv initState := by
  intro i t hi hp
  simp [initState] at hi

/-- Every reachable state satisfies the invariant. -/
theorem Reachable_Inv (st : WState) (h : Reachable st) : Inv st := by
  induction h with
  | init => exact Inv_initState
  | step hr hs ih =>
    cases hs with
    | sync_step interval offset now fetched =>
      exact Inv_sync interval offset now fetched _ ih
    | fire_step now sendOk j _ t hget hpend hdue =>
      exact Inv_fireStep now sendOk j _ ih t hget hpend

/-- The invariant implies that at most one timer is pending. -/
theorem Inv_atMostOnePending (st : WState) (hInv : Inv st) : AtMostOnePending st := by
  intro i j ti tj hi hj hpi hpj
  have h1 := hInv i ti hi hpi
  have h2 := hInv j tj hj hpj
  rw [h1] at h2
  exact Option.some.inj h2

/-- Re-arming with an empty queue only runs the cancellation phase. -/
theorem scheduleReminderTask_empty (st : WState) (h : st.sorted_reminders = []) :
    scheduleReminderTask st = { st with tasks := cancelCurrent st } := by
  unfold scheduleReminderTask
  rw [h]

/-- The cancellation phase keeps the number of tasks. -/
theorem cancelCurrent_length (st : WState) : (cancelCurrent st).length = st.tasks.length := by
  unfold cancelCurrent
  rcases hrem : st.reminder_task with _ | k
  · rfl
  · simp only [cancelTask]
    exact markIfPending_length TStatus.cancelled st.tasks k

/-- Replacing the queue by the empty queue leaves no pending timer. -/
theorem replaceQueue_empty_no_pending (st : WState) (hInv : Inv st) (i : Nat) :
    statusAt (replaceQueue [] st) i ≠ some TStatus.pending := by
  intro hcontra
  unfold replaceQueue at hcontra
  rw [scheduleReminderTask_empty { st with sorted_reminders := [] } rfl] at hcontra
  simp only [statusAt] at hcontra
  rcases hti : (cancelCurrent { st with sorted_reminders := [] })[i]? with _ | t
  · rw [hti] at hcontra
    exact Option.noConfusion hcontra
  · rw [hti] at hcontra
    have hp : t.status = TStatus.pending := by simpa using hcontra
    exact cancelCurrent_no_pending { st with sorted_reminders := [] } hInv i t hti hp

/-- Re-arming preserves the status of a cancelled task. -/
theorem statusAt_cancelled_schedule (st : WState) (i : Nat)
    (h : statusAt st i = some TStatus.cancelled) :
    statusAt (scheduleReminderTask st) i = some TStatus.cancelled := by
  unfold statusAt at h ⊢
  rcases hti : st.tasks[i]? with _ | t
  · rw [hti] at h
    exact Option.noConfusion h
  · rw [hti] at h
    have hc : t.status = TStatus.cancelled := by simpa using h
    have hcc : (cancelCurrent st)[i]? = some t := by
      unfold cancelCurrent
      rcases hrem : st.reminder_task with _ | k
      · exact hti
      · simp only [cancelTask]
        exact markIfPending_keeps_nonpending TStatus.cancelled st.tasks k i t hti (by simp [hc])
    unfold scheduleReminderTask
    rcases hq : st.sorted_reminders with _ | ⟨r, rest⟩
    · rw [hcc]
      simp [hc]
    · have hlt : i < (cancelCurrent st).length := (List.getElem?_eq_some_iff.mp hcc).1
      rw [List.getElem?_append_left hlt, hcc]
      simp [hc]

/-- A sync pass preserves the status of a cancelled task. -/
theorem statusAt_cancelled_sync (interval : Int) (offset : Option Int) (now : Int)
    (fetched : Except Unit (List Event)) (st : WState) (i : Nat)
    (h : statusAt st i = some TStatus.cancelled) :
    statusAt (sync interval offset now fetched st).1 i = some TStatus.cancelled := by
  rcases fetched with e | events
  · exact h
  · simp only [sync]
    split
    · exact h
    · split
      · exact h
      · exact statusAt_cancelled_schedule _ i h

/-- A timer firing preserves the status of a cancelled task. -/
theorem statusAt_cancelled_fireStep (now : Int) (sendOk : Reminder → Bool) (j : Nat)
    (st : WState) (i : Nat) (h : statusAt st i = some TStatus.cancelled) :
    statusAt (fireStep now sendOk j st) i = some TStatus.cancelled := by
  have hmid : statusAt
      { sorted_reminders := (drain now sendOk st.sorted_reminders).queue,
        reminder_task := none, tasks := setFired st.tasks j } i
        = some TStatus.cancelled := by
    unfold statusAt at h ⊢
    rcases hti : st.tasks[i]? with _ | t
    · rw [hti] at h
      exact Option.noConfusion h
    · rw [hti] at h
      have hc : t.status = TStatus.cancelled := by simpa using h
      have hkeep := markIfPending_keeps_nonpending TStatus.fired st.tasks j i t hti
        (by simp [hc])
      simp only [setFired]
      rw [hkeep]
      simp [hc]
  unfold fireStep
  split
  · exact hmid
  · exact statusAt_cancelled_schedule _ i hmid

/-- Every transition preserves the status of a cancelled task: a task
cancelled while sleeping stays cancelled forever, in particular it never
fires and its dispatch coroutine never runs. -/
theorem Step_keeps_cancelled {st st2 : WState} (i : Nat) (hs : Step st st2)
    (h : statusAt st i = some TStatus.cancelled) :
    statusAt st2 i = some TStatus.cancelled := by
  cases hs with
  | sync_step interval offset now fetched =>
    exact statusAt_cancelled_sync interval offset now fetched _ i h
  | fire_step now sendOk j _ t hget hpend hdue =>
    exact statusAt_cancelled_fireStep now sendOk j _ i h

/-- C8: in every reachable worker state at most one dispatch timer is
pending; calling the (re-)arm operation when no timer is armed and the queue
is empty is a complete no-op (the cancellation is safely skipped); replacing
the queue by the empty queue cancels the pending timer and arms no new one
(no pending task remains, no task is created, the queue is empty: Idle); and
a task once cancelled stays cancelled across every transition — its dispatch
coroutine never runs. -/
theorem C8_single_timer_discipline :
    (∀ st : WState, Reachable st → AtMostOnePending st)
    ∧ (∀ st : WState, st.reminder_task = none → st.sorted_reminders = [] →
        scheduleReminderTask st = st)
    ∧ (∀ st : WState, Reachable st →
        (∀ i : Nat, statusAt (replaceQueue [] st) i ≠ some TStatus.pending)
        ∧ (replaceQueue [] st).tasks.length = st.tasks.length
        ∧ (replaceQueue [] st).sorted_reminders = [])
    ∧ (∀ (st st2 : WState) (i : Nat), Step st st2 →
        statusAt st i = some TStatus.cancelled →
        statusAt st2 i = some TStatus.cancelled) := by
  refine ⟨?_, ?_, ?_, ?_⟩
  · exact fun st h => Inv_atMostOnePending st (Reachable_Inv st h)
  · intro st hrem hq
    obtain ⟨q, rt, ts⟩ := st
    change rt = none at hrem
    change q = [] at hq
    subst hrem
    subst hq
    rfl
  · intro st h
    have hInv := Reachable_Inv st h
    refine ⟨replaceQueue_empty_no_pending st hInv, ?_, ?_⟩
    · unfold replaceQueue
      rw [scheduleReminderTask_empty { st with sorted_reminders := [] } rfl]
      exact cancelCurrent_length { st with sorted_reminders := [] }
    · unfold replaceQueue
      rw [scheduleReminderTask_empty { st with sorted_reminders := [] } rfl]
  · exact fun st st2 i hs h => Step_keeps_cancelled i hs h

/-- C8 witness: the discipline applied to the concrete reachable state
produced by one sync pass over `eW` from the initial state. -/
theorem C8_single_timer_discipline_witness :
    AtMostOnePending (sync 60 (some 15) 0 (Except.ok [eW]) initState).1
    ∧ scheduleReminderTask initState = initState
    ∧ (∀ i : Nat,
        statusAt (replaceQueue [] (sync 60 (some 15) 0 (Except.ok [eW]) initState).1) i
          ≠ some TStatus.pending) := by
  have hre : Reachable (sync 60 (some 15) 0 (Except.ok [eW]) initState).1 :=
    Reachable.step Reachable.init (Step.sync_step 60 (some 15) 0 (Except.ok [eW]) initState)
  exact ⟨C8_single_timer_discipline.1 _ hre,
    C8_single_timer_discipline.2.1 initState rfl rfl,
    (C8_single_timer_discipline.2.2.1 _ hre).1⟩

end CaldavBot
